import Mathlib

/-!
Shallow embedding of `src/app.py` (Nassau Candy Profitability dashboard).

The script loads a CSV of sales transactions, coerces the two date columns
with `pd.to_datetime(..., errors="coerce")`, adds two ratio columns, filters
by an order-date range and a division multiselect, computes groupby-sum
summaries per product and per division, a cost table, a Pareto
cumulative-profit curve, and a product-name search via
`Series.str.contains(term, case=False, na=False)` (pandas default
`regex=True`).

Modelling conventions:
* a dataframe is a `List` of row structures, one structure per frame shape;
* numeric cells are exact rationals `ℚ`; float division is modelled by
  `safeDiv`, which returns the IEEE-style sentinels `nan` / `inf` / `ninf`
  on a zero denominator (pandas float semantics) and `val (a / b)` otherwise;
* datetimes are integers `y*10000 + m*100 + d`; a missing datetime (`NaT`)
  is `none`, and any comparison against `NaT` is `false`, as in pandas;
* a possibly-missing string cell (`NaN`) is an `Option String`;
* `groupby` drops rows whose key is missing (pandas `dropna=True` default)
  and produces one output row per distinct key;
* `str.contains` with `regex=True, case=False` is modelled on the
  fragment of Python regex syntax the verified statements exercise:
  literal characters and the `.` wildcard, compared case-insensitively on
  ASCII letters. The other regex metacharacters are not modelled, so
  every quantified statement about search terms restricts them to terms
  free of all of Python's regex metacharacters (`noRegexMeta`), on which
  the real engine degenerates to literal matching.
-/

/-- Value of a float-valued cell: an exact rational, or one of the IEEE
sentinels that pandas division produces on a zero denominator. -/
inductive PandasVal where
  | val (q : ℚ)
  | nan
  | inf
  | ninf
deriving DecidableEq, Repr

/-- `true` on the three non-finite sentinels. -/
def PandasVal.isSentinel : PandasVal → Bool
  | .val _ => false
  | _ => true

/-- Float division as pandas performs it: `0/0 = NaN`, `a/0 = ±inf` for
`a ≠ 0`, ordinary division otherwise. -/
def safeDiv (a b : ℚ) : PandasVal :=
  if b = 0 then
    if a = 0 then .nan else if 0 < a then .inf else .ninf
  else .val (a / b)

/-- Sum of a rational field over the rows of a frame. -/
def sumBy {α : Type} (f : α → ℚ) (l : List α) : ℚ :=
  (l.map f).sum

/-! ### Date parsing (`pd.to_datetime`) -/

/-- Split a character list at `-` separators. -/
def splitDash : List Char → List (List Char)
  | [] => [[]]
  | c :: cs =>
    let rest := splitDash cs
    if c = '-' then [] :: rest
    else match rest with
      | [] => [[c]]
      | g :: gs => (c :: g) :: gs

/-- Read a non-empty all-digit character list as a number. -/
def digitsToNat : List Char → Option Nat
  | [] => none
  | cs =>
    if cs.all (·.isDigit) then
      some (cs.foldl (fun acc c => acc * 10 + (c.toNat - 48)) 0)
    else none

/-- Parse an ISO `YYYY-MM-DD` date text into the integer
`y*10000 + m*100 + d`; `none` when the text is not a date. -/
def parseDate (s : String) : Option Int :=
  match splitDash s.toList with
  | [ys, ms, ds] =>
    match digitsToNat ys, digitsToNat ms, digitsToNat ds with
    | some y, some m, some d =>
      if 1 ≤ m ∧ m ≤ 12 ∧ 1 ≤ d ∧ d ≤ 31 then
        some ((y : Int) * 10000 + (m : Int) * 100 + (d : Int))
      else none
    | _, _, _ => none
  | _ => none

/-- The `errors=` mode of `pd.to_datetime`. -/
inductive DtErrors where
  | raiseErr
  | coerce

/-- `pd.to_datetime` on one cell: with `errors="coerce"` an unparseable
text becomes the missing value `NaT`; with `errors="raise"` it raises. -/
def toDatetime (er : DtErrors) (s : String) : Except String (Option Int) :=
  match parseDate s, er with
  | some d, _ => .ok (some d)
  | none, .coerce => .ok none
  | none, .raiseErr => .error s

/-! ### Rows and loading -/

/-- One CSV record as read by `pd.read_csv`, before date coercion.
A missing `Product Name` cell is `none` (pandas `NaN`). -/
structure RawRow where
  orderDateText : String
  shipDateText : String
  division : String
  productName : Option String
  sales : ℚ
  cost : ℚ
  grossProfit : ℚ
  units : ℚ
deriving DecidableEq, Repr

/-- One transaction row after `load_data`: both date columns coerced. -/
structure Row where
  orderDate : Option Int
  shipDate : Option Int
  division : String
  productName : Option String
  sales : ℚ
  cost : ℚ
  grossProfit : ℚ
  units : ℚ
deriving DecidableEq, Repr

/-- The row `load_data` yields from one raw record. -/
def mkLoadedRow (r : RawRow) : Row :=
  { orderDate := parseDate r.orderDateText
    shipDate := parseDate r.shipDateText
    division := r.division
    productName := r.productName
    sales := r.sales
    cost := r.cost
    grossProfit := r.grossProfit
    units := r.units }

/-- Pure view of the frame `load_data` returns. -/
def loadedRows (raws : List RawRow) : List Row :=
  raws.map mkLoadedRow

/-- `load_data`: read the CSV rows and coerce both date columns with
`pd.to_datetime(..., errors="coerce")`; `Except` records that pandas
operations may raise. -/
def loadData : List RawRow → Except String (List Row)
  | [] => .ok []
  | raw :: rest => do
    let od ← toDatetime .coerce raw.orderDateText
    let sd ← toDatetime .coerce raw.shipDateText
    let rs ← loadData rest
    .ok ({ orderDate := od
           shipDate := sd
           division := raw.division
           productName := raw.productName
           sales := raw.sales
           cost := raw.cost
           grossProfit := raw.grossProfit
           units := raw.units } :: rs)

/-! ### Derived metrics (lines 33-34) -/

/-- A transaction row together with the two derived columns the script
assigns (`df["Gross Margin %"]`, `df["Profit per Unit"]`). -/
structure DRow where
  row : Row
  grossMarginPct : PandasVal
  profitPerUnit : PandasVal
deriving DecidableEq, Repr

/-- Lines 33-34: add `Gross Profit / Sales` and `Gross Profit / Units`
columns to every row. -/
def deriveMetrics (l : List Row) : List DRow :=
  l.map (fun r =>
    { row := r
      grossMarginPct := safeDiv r.grossProfit r.sales
      profitPerUnit := safeDiv r.grossProfit r.units })

/-! ### Sidebar filter (lines 60-64) -/

/-- `series >= bound` on a datetime cell: any comparison with `NaT` is
`false` in pandas. -/
def optDateGE (od : Option Int) (bound : Int) : Bool :=
  match od with
  | none => false
  | some d => bound ≤ d

/-- `series <= bound` on a datetime cell. -/
def optDateLE (od : Option Int) (bound : Int) : Bool :=
  match od with
  | none => false
  | some d => d ≤ bound

/-- Lines 60-64: keep rows whose order date lies in the selected range and
whose division is in the multiselect selection (`Series.isin`). -/
def filteredDf (df : List DRow) (dStart dEnd : Int) (divisions : List String) :
    List DRow :=
  df.filter (fun r =>
    optDateGE r.row.orderDate dStart &&
    optDateLE r.row.orderDate dEnd &&
    divisions.contains r.row.division)

/-! ### Product summary (lines 71-86) -/

/-- One row of `product_summary`. -/
structure SRow where
  productName : String
  sales : ℚ
  grossProfit : ℚ
  units : ℚ
  grossMarginPct : PandasVal
  profitPerUnit : PandasVal
deriving DecidableEq, Repr

/-- The distinct non-missing `Product Name` keys of a frame (`groupby`
drops rows whose key is missing). -/
def productKeys (l : List DRow) : List String :=
  (l.filterMap (fun r => r.row.productName)).dedup

/-- The rows of `l` belonging to the product group `k`. -/
def productGroup (k : String) (l : List DRow) : List DRow :=
  l.filter (fun r => decide (r.row.productName = some k))

/-- Lines 71-86: `groupby("Product Name").agg(sum)` followed by the two
ratio columns recomputed on the summed totals. -/
def productSummary (l : List DRow) : List SRow :=
  (productKeys l).map (fun k =>
    let g := productGroup k l
    let s := sumBy (fun r => r.row.sales) g
    let gp := sumBy (fun r => r.row.grossProfit) g
    let u := sumBy (fun r => r.row.units) g
    { productName := k
      sales := s
      grossProfit := gp
      units := u
      grossMarginPct := safeDiv gp s
      profitPerUnit := safeDiv gp u })

/-! ### Division summary (lines 98-109) -/

/-- One row of `division_summary`. -/
structure VRow where
  division : String
  sales : ℚ
  grossProfit : ℚ
  grossMarginPct : PandasVal
deriving DecidableEq, Repr

/-- Lines 98-109: `groupby("Division").agg(sum)` plus the margin ratio.
The `Division` key column is never missing, so no rows are dropped. -/
def divisionSummary (l : List DRow) : List VRow :=
  ((l.map (fun r => r.row.division)).dedup).map (fun k =>
    let g := l.filter (fun r => decide (r.row.division = k))
    let s := sumBy (fun r => r.row.sales) g
    let gp := sumBy (fun r => r.row.grossProfit) g
    { division := k
      sales := s
      grossProfit := gp
      grossMarginPct := safeDiv gp s })

/-! ### Cost table (lines 127-137) -/

/-- One row of `cost_df`. -/
structure CRow where
  productName : String
  sales : ℚ
  cost : ℚ
  grossProfit : ℚ
  grossMarginPct : PandasVal
deriving DecidableEq, Repr

/-- Lines 127-137: `groupby("Product Name").agg(sum)` over sales, cost and
profit, plus the margin ratio on the totals. -/
def costDf (l : List DRow) : List CRow :=
  (productKeys l).map (fun k =>
    let g := productGroup k l
    let s := sumBy (fun r => r.row.sales) g
    let c := sumBy (fun r => r.row.cost) g
    let gp := sumBy (fun r => r.row.grossProfit) g
    { productName := k
      sales := s
      cost := c
      grossProfit := gp
      grossMarginPct := safeDiv gp s })

/-! ### Pareto curve (lines 155-163) -/

/-- Insert a summary row into a list kept in descending `Gross Profit`
order. -/
def insertDesc (s : SRow) : List SRow → List SRow
  | [] => [s]
  | t :: ts =>
    if t.grossProfit < s.grossProfit then s :: t :: ts
    else t :: insertDesc s ts

/-- `sort_values("Gross Profit", ascending=False)` as an insertion sort. -/
def sortByProfitDesc : List SRow → List SRow
  | [] => []
  | s :: ss => insertDesc s (sortByProfitDesc ss)

/-- Running partial sums with accumulator `acc` (`Series.cumsum`). -/
def cumsumAux (acc : ℚ) : List ℚ → List ℚ
  | [] => []
  | x :: xs => (acc + x) :: cumsumAux (acc + x) xs

/-- `Series.cumsum`: the i-th entry is the sum of the first i+1 entries. -/
def cumsum (l : List ℚ) : List ℚ :=
  cumsumAux 0 l

/-- The `Gross Profit` column of `pareto_df` (sorted descending). -/
def paretoProfits (ps : List SRow) : List ℚ :=
  (sortByProfitDesc ps).map (fun s => s.grossProfit)

/-- Line 162: `total_profit = pareto_df["Gross Profit"].sum()`. -/
def totalProfitOf (ps : List SRow) : ℚ :=
  (paretoProfits ps).sum

/-- Line 163: the `Cumulative Profit %` column, cumulative profit divided
by the total. -/
def paretoCumPct (ps : List SRow) : List PandasVal :=
  (cumsum (paretoProfits ps)).map (fun c => safeDiv c (totalProfitOf ps))

/-! ### Product search (lines 182-192) -/

/-- Lowercased ASCII code of a character, for `case=False` comparison. -/
def lowCode (c : Char) : Nat :=
  if 65 ≤ c.toNat ∧ c.toNat ≤ 90 then c.toNat + 32 else c.toNat

/-- Case-insensitive character equality. -/
def charLowEq (a b : Char) : Bool :=
  lowCode a = lowCode b

/-- A token of the regex fragment `str.contains` can see here: a literal
character or the `.` wildcard. -/
inductive RTok where
  | lit (c : Char)
  | dot
deriving DecidableEq, Repr

/-- Does one pattern token match one character (case-insensitively)? -/
def tokMatches : RTok → Char → Bool
  | .lit a, c => charLowEq a c
  | .dot, _ => true

/-- Does the token list match a leading segment of the text? -/
def reFront : List RTok → List Char → Bool
  | [], _ => true
  | _ :: _, [] => false
  | t :: ts, c :: cs => tokMatches t c && reFront ts cs

/-- `re.search`: does the token list match anywhere in the text? -/
def reFind : List RTok → List Char → Bool
  | toks, [] => toks.isEmpty
  | toks, c :: cs => reFront toks (c :: cs) || reFind toks cs

/-- Compile a search term under pandas default `regex=True`, on the
fragment the verified statements exercise: `.` becomes the any-character
wildcard, every other character a literal. The remaining Python regex
metacharacters (`regexMetaChars`) are NOT modelled; every statement that
quantifies over search terms either restricts to metacharacter-free terms
(`noRegexMeta`), where Python's engine performs plain literal matching,
or uses a concrete term whose only metacharacter is `.`. -/
def compilePat (s : String) : List RTok :=
  s.toList.map (fun c => if c = '.' then RTok.dot else RTok.lit c)

/-- `Series.str.contains(pat, case=False, na=False)` on one non-missing
cell. -/
def strContainsCI (pat hay : String) : Bool :=
  reFind (compilePat pat) hay.toList

/-- Lines 184-192: when the term is non-empty (truthy), display the
summary rows whose product name matches it. -/
def searchResults (term : String) (ps : List SRow) : Option (List SRow) :=
  if term = "" then none
  else some (ps.filter (fun s => strContainsCI term s.productName))

/-- Does the pattern match a leading segment, all-literal version. -/
def frontMatchCI : List Char → List Char → Bool
  | [], _ => true
  | _ :: _, [] => false
  | n :: ns, h :: hs => charLowEq n h && frontMatchCI ns hs

/-- Case-insensitive substring test on character lists. -/
def hasSubCI : List Char → List Char → Bool
  | n, [] => n.isEmpty
  | n, h :: hs => frontMatchCI n (h :: hs) || hasSubCI n hs

/-- The spec's reading of the search ("case-insensitive substring match on
product name"): display exactly the summary rows whose name contains the
term as a plain substring, case-insensitively. -/
def specSearchSubstring (term : String) (ps : List SRow) : Option (List SRow) :=
  if term = "" then none
  else some (ps.filter (fun s => hasSubCI term.toList s.productName.toList))

/-- The characters Python's `re` module treats specially in a pattern. -/
def regexMetaChars : List Char :=
  ['.', '^', '$', '*', '+', '?', '{', '}', '[', ']', '\\', '|', '(', ')']

/-- `true` when the term contains none of Python's regex metacharacters,
so that `re` matches it as a plain (case-folded) literal and in
particular never raises `re.error` on it. -/
def noRegexMeta (s : String) : Bool :=
  s.toList.all (fun c => !(regexMetaChars.contains c))

/-! ### The whole app run -/

/-- The widget state and data one script run sees. -/
structure AppInputs where
  rawRows : List RawRow
  dateStart : Int
  dateEnd : Int
  divisions : List String
  marginThreshold : Nat
  searchTerm : String
deriving DecidableEq, Repr

/-- Everything a run renders: the dataframe after the derived columns, the
filtered frame, every summary table, the Pareto curve data, and the search
results. -/
structure AppOutputs where
  df : List DRow
  filtered : List DRow
  prodSummary : List SRow
  divSummary : List VRow
  costTable : List CRow
  paretoPct : List PandasVal
  totalProfit : ℚ
  searchOut : Option (List SRow)
deriving DecidableEq, Repr

/-- One top-to-bottom execution of `app.py` on the given widget state.
The margin-threshold slider is read (line 55) but never used afterwards,
exactly as in the script. -/
def runApp (i : AppInputs) : AppOutputs :=
  let df := deriveMetrics (loadedRows i.rawRows)
  let fl := filteredDf df i.dateStart i.dateEnd i.divisions
  let ps := productSummary fl
  { df := df
    filtered := fl
    prodSummary := ps
    divSummary := divisionSummary fl
    costTable := costDf fl
    paretoPct := paretoCumPct ps
    totalProfit := totalProfitOf ps
    searchOut := searchResults i.searchTerm ps }

/-! ### Concrete datasets used to instantiate the theorems -/

/-- A transaction of product `Alpha`: sales 10, profit 5, 2 units. -/
def rawAlpha : RawRow :=
  { orderDateText := "2022-01-02", shipDateText := "2022-01-03",
    division := "Chocolate", productName := some "Alpha",
    sales := 10, cost := 5, grossProfit := 5, units := 2 }

/-- A transaction of product `Beta` with a positive profit of 1. -/
def rawBetaPos : RawRow :=
  { orderDateText := "2022-01-04", shipDateText := "2022-01-05",
    division := "Chocolate", productName := some "Beta",
    sales := 4, cost := 3, grossProfit := 1, units := 1 }

/-- A transaction of product `Beta` with a negative profit of -1. -/
def rawBetaNeg : RawRow :=
  { orderDateText := "2022-01-04", shipDateText := "2022-01-05",
    division := "Chocolate", productName := some "Beta",
    sales := 4, cost := 5, grossProfit := -1, units := 1 }

/-- A transaction of product `Gamma` with zero sales, cost and profit. -/
def rawGammaZero : RawRow :=
  { orderDateText := "2022-01-06", shipDateText := "2022-01-07",
    division := "Chocolate", productName := some "Gamma",
    sales := 0, cost := 0, grossProfit := 0, units := 1 }

/-- A transaction whose `Product Name` cell is missing. -/
def rawNoName : RawRow :=
  { orderDateText := "2022-01-08", shipDateText := "2022-01-09",
    division := "Chocolate", productName := none,
    sales := 8, cost := 3, grossProfit := 5, units := 1 }

/-- A transaction of product `Cats`. -/
def rawCats : RawRow :=
  { orderDateText := "2022-01-02", shipDateText := "2022-01-03",
    division := "Chocolate", productName := some "Cats",
    sales := 10, cost := 5, grossProfit := 5, units := 2 }

/-- Widget state covering the whole of 2022 with every division selected
and the default slider value. -/
def mkInputs (raws : List RawRow) (term : String) : AppInputs :=
  { rawRows := raws, dateStart := 20220101, dateEnd := 20221231,
    divisions := ["Chocolate"], marginThreshold := 20, searchTerm := term }

/-- Benign two-product dataset (both profits positive). -/
def inW : AppInputs := mkInputs [rawAlpha, rawBetaPos] ""

/-- Dataset with one negative-profit product. -/
def inNeg : AppInputs := mkInputs [rawAlpha, rawBetaNeg] ""

/-- Dataset whose only product has zero profit. -/
def inZero : AppInputs := mkInputs [rawGammaZero] ""

/-- Dataset with a missing product name on a profitable row. -/
def inNoName : AppInputs := mkInputs [rawNoName] ""

/-- Dataset with product `Cats` and the regex-metacharacter search
term `C.t`. -/
def inCats : AppInputs := mkInputs [rawCats] "C.t"

/-- A loaded row with zero `Sales`, used to exercise the zero-denominator
branch of the ratio columns. -/
def wRow : Row :=
  { orderDate := some 20220101, shipDate := none, division := "Chocolate",
    productName := some "Zed", sales := 0, cost := 1, grossProfit := 5,
    units := 2 }

/-- The derived row the script builds from `wRow`. -/
def wDR : DRow :=
  { row := wRow, grossMarginPct := safeDiv 5 0, profitPerUnit := safeDiv 5 2 }

/-- `rawAlpha` after loading. -/
def rowAlpha : Row :=
  { orderDate := some 20220102, shipDate := some 20220103,
    division := "Chocolate", productName := some "Alpha",
    sales := 10, cost := 5, grossProfit := 5, units := 2 }

/-- `rawBetaPos` after loading. -/
def rowBetaPos : Row :=
  { orderDate := some 20220104, shipDate := some 20220105,
    division := "Chocolate", productName := some "Beta",
    sales := 4, cost := 3, grossProfit := 1, units := 1 }

/-- `rowAlpha` with its derived ratio columns. -/
def dAlpha : DRow :=
  { row := rowAlpha, grossMarginPct := .val (1 / 2),
    profitPerUnit := .val (5 / 2) }

/-- `rowBetaPos` with its derived ratio columns. -/
def dBetaPos : DRow :=
  { row := rowBetaPos, grossMarginPct := .val (1 / 4),
    profitPerUnit := .val 1 }

/-- The `Alpha` summary row of the benign dataset. -/
def sAlpha : SRow :=
  { productName := "Alpha", sales := 10, grossProfit := 5, units := 2,
    grossMarginPct := .val (1 / 2), profitPerUnit := .val (5 / 2) }

/-- The `Beta` summary row of the benign dataset. -/
def sBetaPos : SRow :=
  { productName := "Beta", sales := 4, grossProfit := 1, units := 1,
    grossMarginPct := .val (1 / 4), profitPerUnit := .val 1 }

/-- The `Cats` summary row of the search dataset. -/
def sCats : SRow :=
  { productName := "Cats", sales := 10, grossProfit := 5, units := 2,
    grossMarginPct := .val (1 / 2), profitPerUnit := .val (5 / 2) }

/-! ### Helper lemmas -/

theorem toDatetime_coerce (s : String) :
    toDatetime .coerce s = .ok (parseDate s) := by
  cases h : parseDate s <;> simp [toDatetime, h]

theorem loadData_eq_ok (raws : List RawRow) :
    loadData raws = .ok (loadedRows raws) := by
  induction raws with
  | nil => rfl
  | cons raw rest ih =>
    simp only [loadData, toDatetime_coerce, ih, loadedRows, mkLoadedRow]
    rfl

theorem safeDiv_of_ne (a : ℚ) {b : ℚ} (hb : b ≠ 0) :
    safeDiv a b = .val (a / b) := by
  simp [safeDiv, hb]

theorem safeDiv_of_zero (a : ℚ) :
    (safeDiv a 0).isSentinel = true := by
  by_cases ha : a = 0
  · simp [safeDiv, ha, PandasVal.isSentinel]
  · by_cases ha2 : 0 < a <;> simp [safeDiv, ha, ha2, PandasVal.isSentinel]

theorem mem_insertDesc {x s : SRow} {l : List SRow} :
    x ∈ insertDesc s l ↔ x = s ∨ x ∈ l := by
  induction l with
  | nil => simp [insertDesc]
  | cons t ts ih =>
    by_cases h : t.grossProfit < s.grossProfit
    · simp [insertDesc, h]
    · simp [insertDesc, h, ih]
      tauto

theorem mem_sortByProfitDesc {x : SRow} {l : List SRow} :
    x ∈ sortByProfitDesc l ↔ x ∈ l := by
  induction l with
  | nil => simp [sortByProfitDesc]
  | cons s ss ih => simp [sortByProfitDesc, mem_insertDesc, ih]

theorem sum_map_insertDesc (f : SRow → ℚ) (s : SRow) (l : List SRow) :
    ((insertDesc s l).map f).sum = f s + (l.map f).sum := by
  induction l with
  | nil => simp [insertDesc]
  | cons t ts ih =>
    by_cases h : t.grossProfit < s.grossProfit
    · simp [insertDesc, h]
    · simp [insertDesc, h, ih]
      ring

theorem sum_map_sortByProfitDesc (f : SRow → ℚ) (l : List SRow) :
    ((sortByProfitDesc l).map f).sum = (l.map f).sum := by
  induction l with
  | nil => rfl
  | cons s ss ih => simp [sortByProfitDesc, sum_map_insertDesc, ih]

theorem cumsumAux_ne_nil (acc : ℚ) {l : List ℚ} (h : l ≠ []) :
    cumsumAux acc l ≠ [] := by
  cases l with
  | nil => exact absurd rfl h
  | cons x xs => simp [cumsumAux]

theorem cumsumAux_getLast (acc : ℚ) (l : List ℚ) (h : l ≠ []) :
    (cumsumAux acc l).getLast? = some (acc + l.sum) := by
  induction l generalizing acc with
  | nil => exact absurd rfl h
  | cons x xs ih =>
    cases xs with
    | nil => simp [cumsumAux]
    | cons y ys =>
      rw [show cumsumAux acc (x :: y :: ys)
            = (acc + x) :: (acc + x + y) :: cumsumAux (acc + x + y) ys from rfl]
      rw [List.getLast?_cons_cons]
      rw [show (acc + x + y) :: cumsumAux (acc + x + y) ys
            = cumsumAux (acc + x) (y :: ys) from rfl]
      rw [ih (acc + x) (by simp)]
      simp
      ring

theorem cumsum_getLast {l : List ℚ} (h : l ≠ []) :
    (cumsum l).getLast? = some l.sum := by
  rw [cumsum, cumsumAux_getLast 0 l h, zero_add]

theorem cumsumAux_chain (l : List ℚ) (acc : ℚ) (h : ∀ x ∈ l, 0 ≤ x) :
    List.Chain' (· ≤ ·) (cumsumAux acc l) := by
  induction l generalizing acc with
  | nil => simp [cumsumAux]
  | cons x xs ih =>
    cases xs with
    | nil => simp [cumsumAux]
    | cons y ys =>
      rw [show cumsumAux acc (x :: y :: ys)
            = (acc + x) :: (acc + x + y) :: cumsumAux (acc + x + y) ys from rfl]
      rw [List.chain'_cons]
      constructor
      · have : (0 : ℚ) ≤ y := h y (by simp)
        linarith
      · have := ih (acc + x) (fun z hz => h z (List.mem_cons_of_mem _ hz))
        rw [show cumsumAux (acc + x) (y :: ys)
              = (acc + x + y) :: cumsumAux (acc + x + y) ys from rfl] at this
        exact this

theorem sumBy_filter_split {α : Type} (f : α → ℚ) (p q : α → Bool)
    (l : List α) :
    sumBy f (l.filter q)
      = sumBy f (l.filter fun a => p a && q a)
        + sumBy f (l.filter fun a => !p a && q a) := by
  induction l with
  | nil => simp [sumBy]
  | cons a l ih =>
    by_cases hq : q a <;> by_cases hp : p a <;>
      simp [List.filter_cons, hq, hp, sumBy, List.map_cons] at ih ⊢ <;>
      rw [ih] <;> ring

theorem group_sum (f : DRow → ℚ) (K : List String) (l : List DRow)
    (hnd : K.Nodup)
    (hcov : ∀ r ∈ l, ∀ k, r.row.productName = some k → k ∈ K) :
    ((K.map (fun k => sumBy f (productGroup k l))).sum
      = sumBy f (l.filter fun r => r.row.productName.isSome)) := by
  induction K generalizing l with
  | nil =>
    have hnil : (l.filter fun r => r.row.productName.isSome) = [] := by
      rw [List.filter_eq_nil_iff]
      intro r hr hsome
      cases h : r.row.productName with
      | none => rw [h] at hsome; simp at hsome
      | some k => exact absurd (hcov r hr k h) (by simp)
    simp [hnil, sumBy]
  | cons k K ih =>
    have hk : k ∉ K := (List.nodup_cons.mp hnd).1
    have hndK : K.Nodup := (List.nodup_cons.mp hnd).2
    have hgrp : ∀ x ∈ K, productGroup x l
        = productGroup x (l.filter fun r => !(decide (r.row.productName = some k))) := by
      intro x hx
      rw [productGroup, productGroup, List.filter_filter]
      apply List.filter_congr
      intro r _
      by_cases h : r.row.productName = some x
      · have hxk : x ≠ k := fun hc => hk (hc ▸ hx)
        have hne : r.row.productName ≠ some k := by
          rw [h]
          exact fun hc => hxk (Option.some.inj hc)
        simp [h, hne, hxk]
      · simp [h]
    have hcov2 : ∀ r ∈ (l.filter fun r => !(decide (r.row.productName = some k))),
        ∀ x, r.row.productName = some x → x ∈ K := by
      intro r hr x hx
      have hmem := (List.mem_filter.mp hr).1
      have hcond := (List.mem_filter.mp hr).2
      have := hcov r hmem x hx
      rcases List.mem_cons.mp this with h | h
      · subst h
        rw [hx] at hcond
        simp at hcond
      · exact h
    rw [List.map_cons, List.sum_cons,
      List.map_congr_left (fun x hx => by rw [hgrp x hx]),
      ih _ hndK hcov2]
    rw [sumBy_filter_split f (fun r => decide (r.row.productName = some k))
      (fun r => r.row.productName.isSome) l]
    have h1 : (l.filter fun r =>
        decide (r.row.productName = some k) && r.row.productName.isSome)
        = productGroup k l := by
      rw [productGroup]
      apply List.filter_congr
      intro r _
      by_cases h : r.row.productName = some k <;> simp [h]
    have h2 : ((l.filter fun r => !(decide (r.row.productName = some k))).filter
        fun r => r.row.productName.isSome)
        = l.filter fun r => !(decide (r.row.productName = some k))
            && r.row.productName.isSome := by
      rw [List.filter_filter]
      apply List.filter_congr
      intro r _
      by_cases h : r.row.productName = some k <;> simp [h]
    rw [h1, ← h2]

/-! #### Regex fragment vs plain substring search -/

theorem reFront_lit (n h : List Char) :
    reFront (n.map RTok.lit) h = frontMatchCI n h := by
  induction n generalizing h with
  | nil => simp [reFront, frontMatchCI]
  | cons c cs ih =>
    cases h with
    | nil => simp [reFront, frontMatchCI]
    | cons d ds => simp [reFront, frontMatchCI, tokMatches, ih]

theorem reFind_lit (n h : List Char) :
    reFind (n.map RTok.lit) h = hasSubCI n h := by
  induction h with
  | nil => cases n <;> simp [reFind, hasSubCI]
  | cons d ds ih => simp [reFind, hasSubCI, reFront_lit, ih]

theorem compilePat_of_noMeta {s : String} (h : noRegexMeta s = true) :
    compilePat s = s.toList.map RTok.lit := by
  rw [noRegexMeta] at h
  rw [compilePat]
  apply List.map_congr_left
  intro c hc
  have hmeta := (List.all_eq_true.mp h) c hc
  have hdot : ¬(c = '.') := by
    intro hceq
    subst hceq
    simp [regexMetaChars] at hmeta
  simp [hdot]

/-! #### Concrete evaluations of the benign dataset -/

theorem inW_filtered : (runApp inW).filtered = [dAlpha, dBetaPos] := by
  simp [runApp, inW, mkInputs, rawAlpha, rawBetaPos, loadedRows,
    mkLoadedRow, parseDate, splitDash, digitsToNat, deriveMetrics, filteredDf,
    optDateGE, optDateLE, safeDiv, rowAlpha, rowBetaPos, dAlpha, dBetaPos]
  norm_num

theorem inW_prodSummary : (runApp inW).prodSummary = [sAlpha, sBetaPos] := by
  simp [runApp, inW, mkInputs, rawAlpha, rawBetaPos, loadedRows,
    mkLoadedRow, parseDate, splitDash, digitsToNat, deriveMetrics, filteredDf,
    optDateGE, optDateLE, productSummary, productKeys, productGroup, sumBy,
    safeDiv, rowAlpha, rowBetaPos, sAlpha, sBetaPos]
  norm_num

theorem inW_totalProfit : (runApp inW).totalProfit = 6 := by
  simp [runApp, inW, mkInputs, rawAlpha, rawBetaPos, loadedRows,
    mkLoadedRow, parseDate, splitDash, digitsToNat, deriveMetrics, filteredDf,
    optDateGE, optDateLE, productSummary, productKeys, productGroup, sumBy,
    safeDiv, totalProfitOf, paretoProfits, sortByProfitDesc, insertDesc]
  norm_num

/-! ### The claims -/

/-- C1: every row of the product summary carries as `Gross Margin %` the
(pandas) quotient of the summed `Gross Profit` by the summed `Sales` over
exactly the filtered rows of that product. -/
theorem c1_product_margin_is_summed_ratio (i : AppInputs) (s : SRow)
    (hs : s ∈ (runApp i).prodSummary) :
    s.grossMarginPct
      = safeDiv
          (sumBy (fun r => r.row.grossProfit)
            (productGroup s.productName (runApp i).filtered))
          (sumBy (fun r => r.row.sales)
            (productGroup s.productName (runApp i).filtered)) := by
  have h : (runApp i).prodSummary = productSummary (runApp i).filtered := rfl
  rw [h, productSummary] at hs
  rcases List.mem_map.mp hs with ⟨k, _, hk⟩
  subst hk
  rfl

/-- Witness for C1 at the benign two-product dataset. -/
theorem c1_product_margin_is_summed_ratio_witness :
    sAlpha.grossMarginPct
      = safeDiv
          (sumBy (fun r => r.row.grossProfit)
            (productGroup sAlpha.productName (runApp inW).filtered))
          (sumBy (fun r => r.row.sales)
            (productGroup sAlpha.productName (runApp inW).filtered)) :=
  c1_product_margin_is_summed_ratio inW sAlpha
    (by rw [inW_prodSummary]; exact List.mem_cons_self _ _)

/-- C3: the margin-threshold slider is dead state: two runs that differ
only in `margin_threshold` produce identical outputs — the same filtered
frame and the same tables, charts and search results. -/
theorem c3_margin_threshold_unused (raws : List RawRow) (ds de : Int)
    (divs : List String) (term : String) (t1 t2 : Nat) :
    runApp { rawRows := raws, dateStart := ds, dateEnd := de,
             divisions := divs, marginThreshold := t1, searchTerm := term }
      = runApp { rawRows := raws, dateStart := ds, dateEnd := de,
                 divisions := divs, marginThreshold := t2,
                 searchTerm := term } :=
  rfl

/-- C4: every row of the filtered frame has its `Division` in the selected
subset. -/
theorem c4_filtered_division_in_selection (i : AppInputs) :
    ((runApp i).filtered).all
      (fun r => i.divisions.contains r.row.division) = true := by
  rw [List.all_eq_true]
  intro r hr
  have hr2 : r ∈ List.filter
      (fun r => optDateGE r.row.orderDate i.dateStart &&
        optDateLE r.row.orderDate i.dateEnd &&
        i.divisions.contains r.row.division)
      (deriveMetrics (loadedRows i.rawRows)) := hr
  have hcond := (List.mem_filter.mp hr2).2
  simp only [Bool.and_eq_true] at hcond
  exact hcond.2

/-- C6: `load_data` never raises on a malformed date: it always returns
`ok`, and each returned row carries `parseDate` of its date texts — the
missing value `none` exactly when the text does not parse. -/
theorem c6_load_coerces_bad_dates (raws : List RawRow) :
    loadData raws = .ok (loadedRows raws) ∧
    List.Forall₂ (fun raw row =>
        row.orderDate = parseDate raw.orderDateText ∧
        row.shipDate = parseDate raw.shipDateText)
      raws (loadedRows raws) := by
  refine ⟨loadData_eq_ok raws, ?_⟩
  rw [loadedRows, List.forall₂_map_right_iff]
  rw [List.forall₂_same]
  intro raw _
  exact ⟨rfl, rfl⟩

/-- C8: after a full run the dataframe still consists of exactly the
loaded rows: projecting away the two added ratio columns recovers
`load_data`'s frame, so no original field changed and no row was added or
removed. -/
theorem c8_loaded_data_unchanged (i : AppInputs) :
    ((runApp i).df).map DRow.row = loadedRows i.rawRows := by
  show (deriveMetrics (loadedRows i.rawRows)).map DRow.row
    = loadedRows i.rawRows
  generalize loadedRows i.rawRows = l
  induction l with
  | nil => rfl
  | cons r rs ih =>
    simp only [deriveMetrics, List.map_cons] at ih ⊢
    rw [ih]

/-- C9: a row whose `Order Date` is missing (for instance because its date
text failed to parse) never enters the filtered frame; the summaries, the
charts and the Pareto curve are computed from the filtered frame only. -/
theorem c9_missing_order_date_excluded (i : AppInputs) :
    ((runApp i).filtered).all (fun r => r.row.orderDate.isSome) = true := by
  rw [List.all_eq_true]
  intro r hr
  have hr2 : r ∈ List.filter
      (fun r => optDateGE r.row.orderDate i.dateStart &&
        optDateLE r.row.orderDate i.dateEnd &&
        i.divisions.contains r.row.division)
      (deriveMetrics (loadedRows i.rawRows)) := hr
  have hcond := (List.mem_filter.mp hr2).2
  simp only [Bool.and_eq_true] at hcond
  cases h : r.row.orderDate with
  | none =>
    have := hcond.1.1
    rw [h] at this
    simp [optDateGE] at this
  | some d => rfl

/-! #### Pareto helper -/

theorem safeDiv_cases (a b : ℚ) :
    (b = 0 → (safeDiv a b).isSentinel = true) ∧
    (b ≠ 0 → safeDiv a b = .val (a / b)) :=
  ⟨fun h => by rw [h]; exact safeDiv_of_zero a, fun h => safeDiv_of_ne a h⟩

theorem pareto_chain_of_nonneg (ps : List SRow)
    (hnn : ∀ s ∈ ps, 0 ≤ s.grossProfit)
    (hpos : 0 < totalProfitOf ps) :
    List.Chain' (fun a b => ∃ x y,
        a = PandasVal.val x ∧ b = PandasVal.val y ∧ x ≤ y)
      (paretoCumPct ps)
    ∧ (paretoCumPct ps).getLast? = some (PandasVal.val 1) := by
  have hTne : totalProfitOf ps ≠ 0 := hpos.ne'
  have hentry : ∀ x ∈ paretoProfits ps, (0 : ℚ) ≤ x := by
    intro x hx
    rcases List.mem_map.mp hx with ⟨s, hsmem, rfl⟩
    exact hnn s (mem_sortByProfitDesc.mp hsmem)
  constructor
  · rw [paretoCumPct]
    rw [List.chain'_map]
    apply List.Chain'.imp ?_ (cumsumAux_chain (paretoProfits ps) 0 hentry)
    intro a b hab
    refine ⟨a / totalProfitOf ps, b / totalProfitOf ps,
      safeDiv_of_ne a hTne, safeDiv_of_ne b hTne, ?_⟩
    exact (div_le_div_iff_of_pos_right hpos).mpr hab
  · have hne : paretoProfits ps ≠ [] := by
      intro h
      rw [totalProfitOf, h] at hpos
      simp at hpos
    rw [paretoCumPct, List.getLast?_map, cumsum_getLast hne]
    rw [Option.map_some']
    rw [show (paretoProfits ps).sum = totalProfitOf ps from rfl]
    rw [safeDiv_of_ne _ hTne, div_self hTne]

/-! #### Evaluations of the adversarial datasets -/

theorem inNeg_paretoPct :
    (runApp inNeg).paretoPct = [PandasVal.val (5 / 4), PandasVal.val 1] := by
  simp [runApp, inNeg, mkInputs, rawAlpha, rawBetaNeg, loadedRows,
    mkLoadedRow, parseDate, splitDash, digitsToNat, deriveMetrics, filteredDf,
    optDateGE, optDateLE, productSummary, productKeys, productGroup, sumBy,
    safeDiv, paretoCumPct, paretoProfits, totalProfitOf, sortByProfitDesc,
    insertDesc, cumsum, cumsumAux]
  norm_num

theorem inZero_paretoPct :
    (runApp inZero).paretoPct = [PandasVal.nan] := by
  simp [runApp, inZero, mkInputs, rawGammaZero, loadedRows,
    mkLoadedRow, parseDate, splitDash, digitsToNat, deriveMetrics, filteredDf,
    optDateGE, optDateLE, productSummary, productKeys, productGroup, sumBy,
    safeDiv, paretoCumPct, paretoProfits, totalProfitOf, sortByProfitDesc,
    insertDesc, cumsum, cumsumAux]

/-- C2 (amended): when every product's summed profit is nonnegative and
the total profit is positive, the `Cumulative Profit %` sequence is
non-decreasing and ends at 1.0. -/
theorem c2_pareto_monotone_of_nonneg (i : AppInputs)
    (hnn : ∀ s ∈ (runApp i).prodSummary, 0 ≤ s.grossProfit)
    (hpos : 0 < (runApp i).totalProfit) :
    List.Chain' (fun a b => ∃ x y,
        a = PandasVal.val x ∧ b = PandasVal.val y ∧ x ≤ y)
      (runApp i).paretoPct
    ∧ ((runApp i).paretoPct).getLast? = some (PandasVal.val 1) :=
  pareto_chain_of_nonneg ((runApp i).prodSummary) hnn hpos

/-- Witness for the amended C2 at the benign dataset. -/
theorem c2_pareto_monotone_of_nonneg_witness :
    List.Chain' (fun a b => ∃ x y,
        a = PandasVal.val x ∧ b = PandasVal.val y ∧ x ≤ y)
      (runApp inW).paretoPct
    ∧ ((runApp inW).paretoPct).getLast? = some (PandasVal.val 1) :=
  c2_pareto_monotone_of_nonneg inW
    (by
      intro s hs
      rw [inW_prodSummary] at hs
      rcases List.mem_cons.mp hs with rfl | hs2
      · norm_num [sAlpha]
      · rcases List.mem_cons.mp hs2 with rfl | h
        · norm_num [sBetaPos]
        · simp at h)
    (by rw [inW_totalProfit]; norm_num)

/-- C2 counterexample: with a negative-profit product the cumulative
sequence strictly decreases (the run on `inNeg` yields `[5/4, 1]`), and
with an all-zero dataset the last value is `NaN`, not 1.0. -/
theorem c2_counterexample :
    ¬ List.Chain' (fun a b => ∃ x y,
        a = PandasVal.val x ∧ b = PandasVal.val y ∧ x ≤ y)
      (runApp inNeg).paretoPct
    ∧ ¬ (((runApp inZero).paretoPct).getLast? = some (PandasVal.val 1)) := by
  constructor
  · rw [inNeg_paretoPct]
    intro hch
    obtain ⟨x, y, hx, hy, hxy⟩ := (List.chain'_cons.mp hch).1
    injection hx with hx
    injection hy with hy
    rw [← hx, ← hy] at hxy
    norm_num at hxy
  · rw [inZero_paretoPct]
    simp

/-! #### C5: search -/

/-- C5 (amended): for a search term free of every Python regex
metacharacter (`regexMetaChars`) the displayed results are exactly the
summary rows whose product name contains the term as a case-insensitive
substring. Terms with a metacharacter are handed to the regex engine by
`str.contains` (pandas default `regex=True`) — matched as regular
expressions, or rejected with `re.error` when invalid — so the original
claim fails on them. -/
theorem c5_search_substring_when_no_meta (i : AppInputs)
    (h : noRegexMeta i.searchTerm = true) :
    (runApp i).searchOut
      = specSearchSubstring i.searchTerm (runApp i).prodSummary := by
  have hdef : (runApp i).searchOut
      = searchResults i.searchTerm ((runApp i).prodSummary) := rfl
  rw [hdef, searchResults, specSearchSubstring]
  by_cases he : i.searchTerm = ""
  · rw [if_pos he, if_pos he]
  · rw [if_neg he, if_neg he]
    congr 1
    apply List.filter_congr
    intro s _
    rw [strContainsCI, compilePat_of_noMeta h, reFind_lit]

/-- Witness for the amended C5: a metacharacter-free term on the benign
dataset. -/
theorem c5_search_substring_when_no_meta_witness :
    (runApp (mkInputs [rawAlpha, rawBetaPos] "alp")).searchOut
      = specSearchSubstring
          (mkInputs [rawAlpha, rawBetaPos] "alp").searchTerm
          (runApp (mkInputs [rawAlpha, rawBetaPos] "alp")).prodSummary :=
  c5_search_substring_when_no_meta (mkInputs [rawAlpha, rawBetaPos] "alp")
    (by decide)

theorem inCats_prodSummary : (runApp inCats).prodSummary = [sCats] := by
  simp [runApp, inCats, mkInputs, rawCats, loadedRows,
    mkLoadedRow, parseDate, splitDash, digitsToNat, deriveMetrics, filteredDf,
    optDateGE, optDateLE, productSummary, productKeys, productGroup, sumBy,
    safeDiv, sCats]
  norm_num

/-- C5 counterexample: with the term `C.t` the app displays the product
`Cats` (regex `.` matches the `a`), while a case-insensitive substring
match would display nothing, so the displayed results differ from the
spec's substring semantics. -/
theorem c5_counterexample :
    (runApp inCats).searchOut
      ≠ specSearchSubstring inCats.searchTerm (runApp inCats).prodSummary := by
  have hdef : (runApp inCats).searchOut
      = searchResults inCats.searchTerm ((runApp inCats).prodSummary) := rfl
  have hterm : inCats.searchTerm = "C.t" := rfl
  rw [hdef, hterm, inCats_prodSummary]
  rw [searchResults, specSearchSubstring]
  rw [if_neg (by decide), if_neg (by decide)]
  intro hEq
  have hAB := Option.some.inj hEq
  have hmem1 : sCats ∈ List.filter
      (fun s => strContainsCI "C.t" s.productName) [sCats] :=
    List.mem_filter.mpr ⟨List.mem_cons_self _ _, by decide⟩
  rw [hAB] at hmem1
  exact absurd ((List.mem_filter.mp hmem1).2) (by decide)

/-! #### C7: totality of the ratio columns -/

/-- C7: the derived ratio columns are total: per row and on aggregated
totals, `Gross Margin %` and `Profit per Unit` hold a non-finite sentinel
exactly when the denominator sums to zero, and the ordinary quotient
otherwise; no run aborts. -/
theorem c7_ratio_columns_total :
    (∀ (l : List Row), ∀ dr ∈ deriveMetrics l,
      dr.grossMarginPct = safeDiv dr.row.grossProfit dr.row.sales ∧
      dr.profitPerUnit = safeDiv dr.row.grossProfit dr.row.units ∧
      (dr.row.sales = 0 → dr.grossMarginPct.isSentinel = true) ∧
      (dr.row.sales ≠ 0 →
        dr.grossMarginPct = .val (dr.row.grossProfit / dr.row.sales)) ∧
      (dr.row.units = 0 → dr.profitPerUnit.isSentinel = true) ∧
      (dr.row.units ≠ 0 →
        dr.profitPerUnit = .val (dr.row.grossProfit / dr.row.units))) ∧
    (∀ (l : List DRow), ∀ s ∈ productSummary l,
      s.grossMarginPct = safeDiv s.grossProfit s.sales ∧
      (s.sales = 0 → s.grossMarginPct.isSentinel = true) ∧
      (s.sales ≠ 0 → s.grossMarginPct = .val (s.grossProfit / s.sales)) ∧
      (s.units = 0 → s.profitPerUnit.isSentinel = true) ∧
      (s.units ≠ 0 → s.profitPerUnit = .val (s.grossProfit / s.units))) ∧
    (∀ (l : List DRow), ∀ c ∈ costDf l,
      c.grossMarginPct = safeDiv c.grossProfit c.sales ∧
      (c.sales = 0 → c.grossMarginPct.isSentinel = true) ∧
      (c.sales ≠ 0 → c.grossMarginPct = .val (c.grossProfit / c.sales))) := by
  refine ⟨?_, ?_, ?_⟩
  · intro l dr hdr
    rw [deriveMetrics] at hdr
    rcases List.mem_map.mp hdr with ⟨r, _, rfl⟩
    exact ⟨rfl, rfl, (safeDiv_cases r.grossProfit r.sales).1,
      (safeDiv_cases r.grossProfit r.sales).2,
      (safeDiv_cases r.grossProfit r.units).1,
      (safeDiv_cases r.grossProfit r.units).2⟩
  · intro l s hs
    rw [productSummary] at hs
    rcases List.mem_map.mp hs with ⟨k, _, rfl⟩
    exact ⟨rfl, (safeDiv_cases _ _).1, (safeDiv_cases _ _).2,
      (safeDiv_cases _ _).1, (safeDiv_cases _ _).2⟩
  · intro l c hc
    rw [costDf] at hc
    rcases List.mem_map.mp hc with ⟨k, _, rfl⟩
    exact ⟨rfl, (safeDiv_cases _ _).1, (safeDiv_cases _ _).2⟩

/-- Witness for C7 on a row with zero `Sales`: the margin is a sentinel
and the per-unit profit is the plain quotient. -/
theorem c7_ratio_columns_total_witness :
    wDR.grossMarginPct.isSentinel = true ∧
    wDR.profitPerUnit = PandasVal.val (wDR.row.grossProfit / wDR.row.units) := by
  have h := c7_ratio_columns_total.1 [wRow] wDR
    (by simp [deriveMetrics, wDR, wRow])
  exact ⟨h.2.2.1 rfl, h.2.2.2.2.2 (by norm_num [wDR, wRow])⟩

/-! #### C10: conservation of totals under groupby -/

theorem productKeys_cover (fl : List DRow) :
    ∀ r ∈ fl, ∀ k, r.row.productName = some k → k ∈ productKeys fl := by
  intro r hr k hk
  rw [productKeys, List.mem_dedup]
  exact List.mem_filterMap.mpr ⟨r, hr, by rw [hk]⟩

theorem summary_profit_sum (fl : List DRow) :
    sumBy SRow.grossProfit (productSummary fl)
      = sumBy (fun r => r.row.grossProfit)
          (fl.filter (fun r => r.row.productName.isSome)) := by
  have hmm : sumBy SRow.grossProfit (productSummary fl)
      = ((productKeys fl).map
          (fun k => sumBy (fun r => r.row.grossProfit)
            (productGroup k fl))).sum := by
    rw [productSummary, sumBy, List.map_map]
    rfl
  rw [hmm]
  exact group_sum _ _ _ (List.nodup_dedup _) (productKeys_cover fl)

theorem total_profit_eq_summary_sum (ps : List SRow) :
    totalProfitOf ps = sumBy SRow.grossProfit ps := by
  rw [totalProfitOf, paretoProfits, sum_map_sortByProfitDesc, sumBy]

/-- C10 (amended): the summary's `Gross Profit` total equals the filtered
total over rows with a non-missing product name, and equals the Pareto
normalizing total; it equals the full filtered total whenever every
filtered row has a product name (groupby drops nameless rows). -/
theorem c10_groupby_conserves_named_total (i : AppInputs) :
    sumBy SRow.grossProfit (runApp i).prodSummary
      = sumBy (fun r => r.row.grossProfit)
          (((runApp i).filtered).filter (fun r => r.row.productName.isSome))
    ∧ (runApp i).totalProfit = sumBy SRow.grossProfit (runApp i).prodSummary
    ∧ ((∀ r ∈ (runApp i).filtered, r.row.productName.isSome = true) →
        sumBy SRow.grossProfit (runApp i).prodSummary
          = sumBy (fun r => r.row.grossProfit) (runApp i).filtered) := by
  refine ⟨summary_profit_sum _, total_profit_eq_summary_sum _, ?_⟩
  intro h
  have h2 : ((runApp i).filtered).filter (fun r => r.row.productName.isSome)
      = (runApp i).filtered := List.filter_eq_self.mpr h
  calc sumBy SRow.grossProfit (runApp i).prodSummary
      = sumBy (fun r => r.row.grossProfit)
          (((runApp i).filtered).filter
            (fun r => r.row.productName.isSome)) := summary_profit_sum _
    _ = sumBy (fun r => r.row.grossProfit) (runApp i).filtered := by rw [h2]

/-- Witness for the amended C10: on the benign dataset (every row named)
the summary total equals the filtered total. -/
theorem c10_groupby_conserves_named_total_witness :
    sumBy SRow.grossProfit (runApp inW).prodSummary
      = sumBy (fun r => r.row.grossProfit) (runApp inW).filtered := by
  apply (c10_groupby_conserves_named_total inW).2.2
  intro r hr
  rw [inW_filtered] at hr
  rcases List.mem_cons.mp hr with rfl | hr2
  · rfl
  · rcases List.mem_cons.mp hr2 with rfl | h0
    · rfl
    · simp at h0

theorem inNoName_prodSummary : (runApp inNoName).prodSummary = [] := by
  simp [runApp, inNoName, mkInputs, rawNoName, loadedRows, mkLoadedRow,
    parseDate, splitDash, digitsToNat, deriveMetrics, filteredDf, optDateGE,
    optDateLE, productSummary, productKeys]

theorem inNoName_filtered_profit :
    sumBy (fun r => r.row.grossProfit) (runApp inNoName).filtered = 5 := by
  simp [runApp, inNoName, mkInputs, rawNoName, loadedRows, mkLoadedRow,
    parseDate, splitDash, digitsToNat, deriveMetrics, filteredDf, optDateGE,
    optDateLE, sumBy, safeDiv]

/-- C10 counterexample: one profitable row with a missing product name is
dropped by groupby, so the summary total (0) is not the filtered total
(5). -/
theorem c10_counterexample :
    sumBy SRow.grossProfit (runApp inNoName).prodSummary
      ≠ sumBy (fun r => r.row.grossProfit) (runApp inNoName).filtered := by
  rw [inNoName_prodSummary, inNoName_filtered_profit]
  norm_num [sumBy]
